import Mathlib

/-!
# Verification of the SplineLibrary generic B-spline engine

Shallow embedding of `src/spline_library/splines/generic_b_spline.h`
(`GenericBSplineCommon`, `GenericBSpline`, `LoopingGenericBSpline`).

Modelling conventions:
* `floating_t` is embedded as `ℚ` (exact arithmetic).
* `InterpolationType` is an arbitrary `V` with `AddCommGroup V` and
  `Module ℚ V`; the C++ expression `v * s` for a scalar `s` is `s • v`,
  and the default-constructed `InterpolationType()` is `0`.
* C++ `std::vector` indexing `v[i]` is `List.getD v i 0`; every theorem
  below only touches in-bounds indices on the executions it talks about.
* `size_t` subtraction that could underflow on some inputs is embedded
  with an explicit wrap modulo `2 ^ 64` (see `segmentForT`); other
  index arithmetic is only ever reached with the subtrahend smaller, so
  plain `Nat` arithmetic agrees with the machine arithmetic there.
* Helper routines that live in `spline.h` / `calculus.h` (not among the
  provided sources) are modelled from the spec and marked as such in
  their doc comments.
-/

/-- Embedding of `GenericBSplineCommon<InterpolationType, floating_t>`:
the control points, the knot vector and the spline degree
(`generic_b_spline.h`, lines 113-116). -/
structure GenericBSplineCommon (V : Type) where
  positions : List V
  knots : List ℚ
  splineDegree : ℕ

variable {V : Type} [AddCommGroup V] [Module ℚ V]

/-- `GenericBSplineCommon::segmentCount`:
`positions.size() - splineDegree` (`generic_b_spline.h`, lines 16-19). -/
def segmentCount (c : GenericBSplineCommon V) : ℕ :=
  c.positions.length - c.splineDegree

/-- Modelled from the spec: `SplineCommon::getIndexForT` is defined in
`spline.h`, which is not among the provided sources.  Spec §4.2:
"perform an ordered search (e.g., binary search over the monotonic knot
sequence) for the greatest knot index ≤ t".  We take the greatest index
`j` of the knot vector with `knots[j] ≤ t` (and `0` when no index
qualifies, which no theorem below relies on). -/
def getIndexForT (knots : List ℚ) (t : ℚ) : ℕ :=
  ((List.range knots.length).filter (fun j => decide (knots.getD j 0 ≤ t))).foldl max 0

/-- `GenericBSplineCommon::segmentForT` (`generic_b_spline.h`, lines 21-36):
return `0` for `t < 0`; otherwise compute
`getIndexForT(knots, t) - (splineDegree - 1)` in `size_t` arithmetic
(embedded with an explicit wrap modulo `2 ^ 64`, since the C++
subtraction is on `size_t`) and clamp the result to
`segmentCount() - 1`. -/
def segmentForT (c : GenericBSplineCommon V) (t : ℚ) : ℕ :=
  if t < 0 then 0
  else
    if segmentCount c - 1 <
        (getIndexForT c.knots t + (2 ^ 64 - (c.splineDegree - 1))) % 2 ^ 64 then
      segmentCount c - 1
    else
      (getIndexForT c.knots t + (2 ^ 64 - (c.splineDegree - 1))) % 2 ^ 64

/-- `GenericBSplineCommon::segmentT`:
`knots[segmentIndex + splineDegree - 1]` (`generic_b_spline.h`, lines 38-41). -/
def segmentT (c : GenericBSplineCommon V) (segmentIndex : ℕ) : ℚ :=
  c.knots.getD (segmentIndex + c.splineDegree - 1) 0

/-- `GenericBSplineCommon::computeDeboor` (`generic_b_spline.h`, lines
119-137): degree `0` returns `positions[knotIndex]`; degree `d+1`
computes `alpha = (globalT - knots[knotIndex-1]) /
(knots[knotIndex + splineDegree - degree] - knots[knotIndex-1])` and
blends the two recursive evaluations one degree down. -/
def computeDeboor (c : GenericBSplineCommon V) :
    ℕ → ℕ → ℚ → V
  | knotIndex, 0, _ => c.positions.getD knotIndex 0
  | knotIndex, d + 1, globalT =>
    let alpha : ℚ :=
      (globalT - c.knots.getD (knotIndex - 1) 0) /
        (c.knots.getD (knotIndex + c.splineDegree - (d + 1)) 0 - c.knots.getD (knotIndex - 1) 0)
    let leftRecursive := computeDeboor c (knotIndex - 1) d globalT
    let rightRecursive := computeDeboor c knotIndex d globalT
    (1 - alpha) • leftRecursive + alpha • rightRecursive

/-- `GenericBSplineCommon::computeDeboorDerivative` (`generic_b_spline.h`,
lines 139-170): degree `0` returns the default-constructed value `0`;
degree `d+1` computes `multiplier = degree /
(knots[knotIndex + splineDegree - degree] - knots[knotIndex-1])` and
either drops into the position recursion (`derivativeLevel ≤ 1`) or
recurses into the derivative at `derivativeLevel - 1`. -/
def computeDeboorDerivative (c : GenericBSplineCommon V) :
    ℕ → ℕ → ℚ → ℕ → V
  | _, 0, _, _ => 0
  | knotIndex, d + 1, globalT, derivativeLevel =>
    let multiplier : ℚ :=
      (d + 1 : ℚ) /
        (c.knots.getD (knotIndex + c.splineDegree - (d + 1)) 0 - c.knots.getD (knotIndex - 1) 0)
    if derivativeLevel ≤ 1 then
      multiplier •
        (computeDeboor c knotIndex d globalT - computeDeboor c (knotIndex - 1) d globalT)
    else
      multiplier •
        (computeDeboorDerivative c knotIndex d globalT (derivativeLevel - 1)
          - computeDeboorDerivative c (knotIndex - 1) d globalT (derivativeLevel - 1))

/-- `GenericBSplineCommon::getPosition` (`generic_b_spline.h`, lines 43-49). -/
def getPosition (c : GenericBSplineCommon V) (globalT : ℚ) : V :=
  let segmentIndex := segmentForT c globalT
  let innerIndex := segmentIndex + (c.splineDegree - 1)
  computeDeboor c (innerIndex + 1) c.splineDegree globalT

/-- `Spline::InterpolatedPT`: the (position, tangent) result tuple. -/
structure InterpolatedPT (V : Type) where
  position : V
  tangent : V

/-- `Spline::InterpolatedPTC`: the (position, tangent, curvature) result tuple. -/
structure InterpolatedPTC (V : Type) where
  position : V
  tangent : V
  curvature : V

/-- `Spline::InterpolatedPTCW`: the (position, tangent, curvature, wiggle)
result tuple. -/
structure InterpolatedPTCW (V : Type) where
  position : V
  tangent : V
  curvature : V
  wiggle : V

/-- `GenericBSplineCommon::getTangent` (`generic_b_spline.h`, lines 51-60). -/
def getTangent (c : GenericBSplineCommon V) (globalT : ℚ) : InterpolatedPT V :=
  let segmentIndex := segmentForT c globalT
  let innerIndex := segmentIndex + (c.splineDegree - 1)
  { position := computeDeboor c (innerIndex + 1) c.splineDegree globalT
    tangent := computeDeboorDerivative c (innerIndex + 1) c.splineDegree globalT 1 }

/-- `GenericBSplineCommon::getCurvature` (`generic_b_spline.h`, lines 62-72). -/
def getCurvature (c : GenericBSplineCommon V) (globalT : ℚ) : InterpolatedPTC V :=
  let segmentIndex := segmentForT c globalT
  let innerIndex := segmentIndex + (c.splineDegree - 1)
  { position := computeDeboor c (innerIndex + 1) c.splineDegree globalT
    tangent := computeDeboorDerivative c (innerIndex + 1) c.splineDegree globalT 1
    curvature := computeDeboorDerivative c (innerIndex + 1) c.splineDegree globalT 2 }

/-- `GenericBSplineCommon::getWiggle` (`generic_b_spline.h`, lines 74-85). -/
def getWiggle (c : GenericBSplineCommon V) (globalT : ℚ) : InterpolatedPTCW V :=
  let segmentIndex := segmentForT c globalT
  let innerIndex := segmentIndex + (c.splineDegree - 1)
  { position := computeDeboor c (innerIndex + 1) c.splineDegree globalT
    tangent := computeDeboorDerivative c (innerIndex + 1) c.splineDegree globalT 1
    curvature := computeDeboorDerivative c (innerIndex + 1) c.splineDegree globalT 2
    wiggle := computeDeboorDerivative c (innerIndex + 1) c.splineDegree globalT 3 }

/-- Modelled from the spec: `SplineLibraryCalculus::gaussLegendreQuadratureIntegral`
is defined in `calculus.h`, which is not among the provided sources.
Spec §4.4: "a weighted sum of function evaluations at precomputed sample
abscissas scaled into [a,b]".  The precomputed (weight, abscissa) table
is a parameter, since its numeric values are also outside the provided
sources. -/
def gaussLegendreQuadratureIntegral (table : List (ℚ × ℚ)) (f : ℚ → ℚ) (a b : ℚ) : ℚ :=
  ((b - a) / 2) *
    (table.map (fun wx => wx.1 * f ((b - a) / 2 * wx.2 + (a + b) / 2))).sum

/-- `GenericBSplineCommon::segmentLength` (`generic_b_spline.h`, lines
87-107): if the segment's knot span `knots[innerIndex+1] - knots[innerIndex]`
is positive, integrate the tangent magnitude over `[a, b]` by
Gauss-Legendre quadrature, otherwise return `0`.  The magnitude
operation `.length()` of the interpolation type is a parameter `len`
(spec §1 treats the vector type's magnitude as a supplied external
operation), as is the quadrature table. -/
def segmentLength (table : List (ℚ × ℚ)) (len : V → ℚ) (c : GenericBSplineCommon V)
    (segmentIndex : ℕ) (a b : ℚ) : ℚ :=
  let innerIndex := segmentIndex + c.splineDegree - 1
  let tDistance := c.knots.getD (innerIndex + 1) 0 - c.knots.getD innerIndex 0
  if 0 < tDistance then
    gaussLegendreQuadratureIntegral table
      (fun t => len (computeDeboorDerivative c (innerIndex + 1) c.splineDegree t 1)) a b
  else 0

/-- The uniform knot vector with the given padding: entry `j` is
`(j : ℚ) - padding`. -/
def uniformKnotVector (padding count : ℕ) : List ℚ :=
  (List.range count).map (fun (j : ℕ) => (j : ℚ) - (padding : ℚ))

/-- Modelled from the spec: `SplineCommon::computeTValuesWithOuterPadding`
is defined in `spline.h`, which is not among the provided sources.
Spec §4.1: with exponent α the increment between consecutive knots is the
inter-point distance raised to α, accumulated from `knot[0] = 0`, over
indices `-padding .. size-1+padding`.  The `GenericBSpline` constructor
calls it with exponent `0.0f` (`generic_b_spline.h`, line 186), and "α=0
forces increment=1, giving uniform spacing regardless of geometry", so
`indexToT[i] = i`; the constructor then stores `knots[i + padding] =
indexToT[i]` (lines 190-194). -/
def openKnots (size degree : ℕ) : List ℚ :=
  uniformKnotVector (degree - 1) (size + 2 * (degree - 1))

/-- Modelled from the spec: `SplineCommon::computeLoopingTValues` is
defined in `spline.h`, which is not among the provided sources.  Spec
§4.1: the looping variant computes wrapped distances (all increments `1`
at exponent `0.0f`, the value passed at `generic_b_spline.h`, line 214)
over indices `-padding .. size+padding`, one extra trailing knot
compared to the open case; the constructor stores `knots[i + padding] =
indexToT[i]` (lines 228-235). -/
def loopingKnots (size degree : ℕ) : List ℚ :=
  uniformKnotVector (degree - 1) (size + 2 * (degree - 1) + 1)

/-- The `GenericBSpline` constructor (`generic_b_spline.h`, lines
177-197): requires `points.size() > degree` (the `assert` on line 180,
embedded as an `Option` guard), and builds the common evaluator from the
points as-is and the padded uniform knot vector. -/
def GenericBSpline.make (points : List V) (degree : ℕ) :
    Option (GenericBSplineCommon V) :=
  if degree < points.length then
    some { positions := points, knots := openKnots points.length degree, splineDegree := degree }
  else
    none

/-- The `LoopingGenericBSpline` constructor (`generic_b_spline.h`, lines
205-238): requires `points.size() > degree` (the `assert` on line 208,
embedded as an `Option` guard); rotates the control points (last point
first, then all points, then the first `degree - 1` points again) and
pairs them with the looping knot vector. -/
def LoopingGenericBSpline.make (points : List V) (degree : ℕ) :
    Option (GenericBSplineCommon V) :=
  if degree < points.length then
    some { positions :=
             points.getD (points.length - 1) 0 :: points ++ points.take (degree - 1)
           knots := loopingKnots points.length degree
           splineDegree := degree }
  else
    none

/-- The knot-span denominators of every division performed in the
`computeDeboor` recursion tree rooted at `(knotIndex, degree)`: each node
of positive degree divides by
`knots[knotIndex + splineDegree - degree] - knots[knotIndex - 1]`
and recurses at `(knotIndex - 1, degree - 1)` and `(knotIndex, degree - 1)`. -/
def deboorDenominators (c : GenericBSplineCommon V) :
    ℕ → ℕ → List ℚ
  | _, 0 => []
  | knotIndex, d + 1 =>
    (c.knots.getD (knotIndex + c.splineDegree - (d + 1)) 0 - c.knots.getD (knotIndex - 1) 0)
      :: (deboorDenominators c (knotIndex - 1) d ++ deboorDenominators c knotIndex d)

/-- The knot-span denominators of every division performed in the
`computeDeboorDerivative` recursion tree rooted at
`(knotIndex, degree, derivativeLevel)`, including the `computeDeboor`
subtrees it drops into when the level reaches `1`. -/
def deboorDerivativeDenominators (c : GenericBSplineCommon V) :
    ℕ → ℕ → ℕ → List ℚ
  | _, 0, _ => []
  | knotIndex, d + 1, derivativeLevel =>
    (c.knots.getD (knotIndex + c.splineDegree - (d + 1)) 0 - c.knots.getD (knotIndex - 1) 0)
      :: (if derivativeLevel ≤ 1 then
            deboorDenominators c (knotIndex - 1) d ++ deboorDenominators c knotIndex d
          else
            deboorDerivativeDenominators c (knotIndex - 1) d (derivativeLevel - 1)
              ++ deboorDerivativeDenominators c knotIndex d (derivativeLevel - 1))

/-! ## Basic facts about the uniform knot vectors -/

theorem uniformKnotVector_length (padding count : ℕ) :
    (uniformKnotVector padding count).length = count := by
  simp [uniformKnotVector]

theorem uniformKnotVector_getD (padding count j : ℕ) (hj : j < count) :
    (uniformKnotVector padding count).getD j 0 = (j : ℚ) - padding := by
  rw [uniformKnotVector, List.getD_eq_getElem?_getD, List.getElem?_map,
    List.getElem?_range hj]
  rfl

theorem foldl_max_le_of_mem (l : List ℕ) (b : ℕ) :
    b ≤ l.foldl max b ∧ ∀ a ∈ l, a ≤ l.foldl max b := by
  induction l generalizing b with
  | nil => simp
  | cons x xs ih =>
    refine ⟨?_, fun a ha => ?_⟩
    · exact le_trans (le_max_left b x) (ih (max b x)).1
    · rcases List.mem_cons.mp ha with rfl | ha
      · exact le_trans (le_max_right b a) (ih (max b a)).1
      · exact (ih (max b x)).2 a ha

/-- Any index whose knot is `≤ t` bounds `getIndexForT` from below. -/
theorem le_getIndexForT (knots : List ℚ) (t : ℚ) (j : ℕ)
    (hj : j < knots.length) (hle : knots.getD j 0 ≤ t) :
    j ≤ getIndexForT knots t := by
  have hmem : j ∈ (List.range knots.length).filter
      (fun j => decide (knots.getD j 0 ≤ t)) := by
    rw [List.mem_filter]
    exact ⟨List.mem_range.mpr hj, decide_eq_true hle⟩
  exact (foldl_max_le_of_mem _ 0).2 j hmem

/-- A small concrete curve (degree 1, two control points, uniform knots)
used to instantiate theorems with hypotheses. -/
def sampleCurve : GenericBSplineCommon ℚ :=
  { positions := [0, 1], knots := [0, 1], splineDegree := 1 }

/-- **C1**: for every generic B-spline and every query parameter `t`,
`getPosition` computes the classical de Boor recursion: it evaluates
`computeDeboor` at the inner knot index of the located segment; at
degree `0` the recursion returns the stored position at the current knot
index; at degree `d > 0` it computes the blend factor
`alpha = (t - knot[i-1]) / (knot[i + splineDegree - d] - knot[i-1])`,
recursively evaluates degree `d - 1` at indices `i - 1` and `i`, and
returns `leftValue * (1 - alpha) + rightValue * alpha`. -/
theorem getPosition_deboor_recursion (c : GenericBSplineCommon V) (t : ℚ) :
    getPosition c t =
      computeDeboor c (segmentForT c t + (c.splineDegree - 1) + 1) c.splineDegree t ∧
    (∀ i : ℕ, computeDeboor c i 0 t = c.positions.getD i 0) ∧
    (∀ i d : ℕ, 0 < d →
      computeDeboor c i d t =
        (1 - (t - c.knots.getD (i - 1) 0) /
            (c.knots.getD (i + c.splineDegree - d) 0 - c.knots.getD (i - 1) 0)) •
          computeDeboor c (i - 1) (d - 1) t +
        ((t - c.knots.getD (i - 1) 0) /
            (c.knots.getD (i + c.splineDegree - d) 0 - c.knots.getD (i - 1) 0)) •
          computeDeboor c i (d - 1) t) := by
  refine ⟨rfl, fun i => rfl, fun i d hd => ?_⟩
  obtain ⟨d', rfl⟩ := Nat.exists_eq_succ_of_ne_zero (Nat.pos_iff_ne_zero.mp hd)
  simp only [computeDeboor, Nat.succ_sub_one]

/-- Witness for `getPosition_deboor_recursion` at a concrete curve,
index `1`, degree `1` and `t = 1/2`. -/
theorem getPosition_deboor_recursion_witness :
    (0 : ℕ) < 1 ∧
    computeDeboor sampleCurve 1 1 (1/2) =
      (1 - ((1/2 : ℚ) - sampleCurve.knots.getD 0 0) /
          (sampleCurve.knots.getD (1 + sampleCurve.splineDegree - 1) 0 -
            sampleCurve.knots.getD 0 0)) •
        computeDeboor sampleCurve 0 0 (1/2) +
      (((1/2 : ℚ) - sampleCurve.knots.getD 0 0) /
          (sampleCurve.knots.getD (1 + sampleCurve.splineDegree - 1) 0 -
            sampleCurve.knots.getD 0 0)) •
        computeDeboor sampleCurve 1 0 (1/2) :=
  ⟨by decide, (getPosition_deboor_recursion sampleCurve (1/2)).2.2 1 1 (by decide)⟩

/-- **C3**: at degree `d > 0` the derivative recursion computes
`multiplier = d / (knot[i + splineDegree - d] - knot[i-1])`; at
derivative level `1` it returns
`multiplier * (positionRecursion(i, d-1) - positionRecursion(i-1, d-1))`,
and at a level greater than `1` it recurses into the derivative formula
itself at `level - 1` at indices `i` and `i - 1`. -/
theorem computeDeboorDerivative_recursion (c : GenericBSplineCommon V) (t : ℚ)
    (i d l : ℕ) (hd : 0 < d) :
    (computeDeboorDerivative c i d t 1 =
      ((d : ℚ) / (c.knots.getD (i + c.splineDegree - d) 0 - c.knots.getD (i - 1) 0)) •
        (computeDeboor c i (d - 1) t - computeDeboor c (i - 1) (d - 1) t)) ∧
    (1 < l →
      computeDeboorDerivative c i d t l =
        ((d : ℚ) / (c.knots.getD (i + c.splineDegree - d) 0 - c.knots.getD (i - 1) 0)) •
          (computeDeboorDerivative c i (d - 1) t (l - 1)
            - computeDeboorDerivative c (i - 1) (d - 1) t (l - 1))) := by
  obtain ⟨d', rfl⟩ := Nat.exists_eq_succ_of_ne_zero (Nat.pos_iff_ne_zero.mp hd)
  constructor
  · simp only [computeDeboorDerivative, Nat.succ_sub_one, if_pos (le_refl 1)]
    push_cast
    rfl
  · intro hl
    have hl' : ¬ (l ≤ 1) := by omega
    simp only [computeDeboorDerivative, Nat.succ_sub_one, if_neg hl']
    push_cast
    rfl

/-- Witness for `computeDeboorDerivative_recursion` at a concrete curve,
index `1`, degree `1`, level `2` and `t = 1/2`. -/
theorem computeDeboorDerivative_recursion_witness :
    (0 : ℕ) < 1 ∧ 1 < 2 ∧
    (computeDeboorDerivative sampleCurve 1 1 (1/2) 1 =
      ((1 : ℚ) / (sampleCurve.knots.getD (1 + sampleCurve.splineDegree - 1) 0 -
          sampleCurve.knots.getD 0 0)) •
        (computeDeboor sampleCurve 1 0 (1/2) - computeDeboor sampleCurve 0 0 (1/2))) ∧
    (computeDeboorDerivative sampleCurve 1 1 (1/2) 2 =
      ((1 : ℚ) / (sampleCurve.knots.getD (1 + sampleCurve.splineDegree - 1) 0 -
          sampleCurve.knots.getD 0 0)) •
        (computeDeboorDerivative sampleCurve 1 0 (1/2) 1
          - computeDeboorDerivative sampleCurve 0 0 (1/2) 1)) :=
  ⟨by decide, by decide,
    (computeDeboorDerivative_recursion sampleCurve (1/2) 1 1 2 (by decide)).1,
    (computeDeboorDerivative_recursion sampleCurve (1/2) 1 1 2 (by decide)).2 (by decide)⟩

/-- Requesting a derivative level strictly above the degree argument makes
the derivative recursion bottom out at degree `0` and return `0`. -/
theorem deboorDerivative_eq_zero_of_degree_lt (c : GenericBSplineCommon V)
    (d i : ℕ) (t : ℚ) (m : ℕ) (hdm : d < m) :
    computeDeboorDerivative c i d t m = 0 := by
  induction d generalizing i m with
  | zero => simp [computeDeboorDerivative]
  | succ d ih =>
    have hm : ¬ (m ≤ 1) := by omega
    simp only [computeDeboorDerivative, if_neg hm]
    rw [ih i (m - 1) (by omega), ih (i - 1) (m - 1) (by omega)]
    simp

/-- **C5**: for a curve of degree `d` and any requested derivative level
`m > d`, the derivative computation returns the zero vector (the
interpolation type's default value), reached through the degree-0 base
case, and is total (no error). -/
theorem derivative_level_exceeding_degree_is_zero (c : GenericBSplineCommon V)
    (i : ℕ) (t : ℚ) (m : ℕ) (hm : c.splineDegree < m) :
    computeDeboorDerivative c i c.splineDegree t m = 0 :=
  deboorDerivative_eq_zero_of_degree_lt c c.splineDegree i t m hm

/-- Witness for `derivative_level_exceeding_degree_is_zero`: the sample
degree-1 curve with derivative level `2`. -/
theorem derivative_level_exceeding_degree_is_zero_witness :
    sampleCurve.splineDegree < 2 ∧
    computeDeboorDerivative sampleCurve 1 sampleCurve.splineDegree (1/2) 2 = 0 :=
  ⟨by decide, derivative_level_exceeding_degree_is_zero sampleCurve 1 (1/2) 2 (by decide)⟩

/-- **C10**: the tuple-returning queries agree on their shared components:
the position component of `getTangent`, `getCurvature` and `getWiggle`
equals `getPosition`; the tangent component of `getCurvature` and
`getWiggle` equals that of `getTangent`; and the curvature component of
`getWiggle` equals that of `getCurvature`. -/
theorem query_components_agree (c : GenericBSplineCommon V) (t : ℚ) :
    (getTangent c t).position = getPosition c t ∧
    (getCurvature c t).position = getPosition c t ∧
    (getWiggle c t).position = getPosition c t ∧
    (getCurvature c t).tangent = (getTangent c t).tangent ∧
    (getWiggle c t).tangent = (getTangent c t).tangent ∧
    (getWiggle c t).curvature = (getCurvature c t).curvature :=
  ⟨rfl, rfl, rfl, rfl, rfl, rfl⟩

/-- Evaluation of the open uniform knot vector for 2 points at degree 1. -/
theorem openKnots_two_one : openKnots 2 1 = [0, 1] := by
  norm_num [openKnots, uniformKnotVector, List.range_succ]

/-- **C2** counterexample: on the degree-1 `GenericBSpline` through the
control points `[0, 1]` the minimum parameter (`segmentT 0`) is `0`, the
query parameter `-1` lies below it, and yet `getPosition (-1) = -1`
differs from `getPosition 0 = 0`: the out-of-range query is evaluated by
the first segment's de Boor formula at the unclamped parameter, not by
clamping to `getPosition` at the minimum parameter. -/
theorem clamp_claim_counterexample :
    (GenericBSpline.make ([0, 1] : List ℚ) 1).elim False (fun c =>
      segmentT c 0 = 0 ∧ (-1 : ℚ) < segmentT c 0 ∧
      getPosition c (-1) ≠ getPosition c (segmentT c 0)) := by
  rw [GenericBSpline.make]
  norm_num [Option.elim, getPosition, segmentT, segmentForT, getIndexForT, segmentCount,
    computeDeboor, openKnots_two_one, List.range_succ]

/-- **C2** amended: `segmentForT` clamps only the *segment index* for an
out-of-range query parameter; `getPosition` then evaluates the located
segment's de Boor formula at the original, unclamped parameter, so
out-of-range queries extrapolate the boundary segment's formula (for
`t < 0`, segment `0`'s formula) instead of returning the position at the
nearest parameter bound. -/
theorem getPosition_unclamped_parameter (c : GenericBSplineCommon V) (t : ℚ) :
    (t < 0 → getPosition c t = computeDeboor c ((c.splineDegree - 1) + 1) c.splineDegree t) ∧
    getPosition c t =
      computeDeboor c (segmentForT c t + (c.splineDegree - 1) + 1) c.splineDegree t := by
  refine ⟨fun ht => ?_, rfl⟩
  simp [getPosition, segmentForT, if_pos ht]

/-- Witness for `getPosition_unclamped_parameter` at the sample curve and
`t = -1`. -/
theorem getPosition_unclamped_parameter_witness :
    (-1 : ℚ) < 0 ∧
    getPosition sampleCurve (-1) =
      computeDeboor sampleCurve ((sampleCurve.splineDegree - 1) + 1)
        sampleCurve.splineDegree (-1) :=
  ⟨by norm_num, (getPosition_unclamped_parameter sampleCurve (-1)).1 (by norm_num)⟩

/-- A degree-1 curve whose only segment has a zero-length knot span,
built directly on the evaluator core (degenerate knot vector). -/
def degenerateCurve : GenericBSplineCommon ℚ :=
  { positions := [0, 1], knots := [0, 0], splineDegree := 1 }

/-- **C6**: `segmentLength` returns `0` whenever the segment's total knot
span `knots[innerIndex+1] - knots[innerIndex]` is zero (the quadrature
arm is not taken), and otherwise returns the fixed-order Gauss-Legendre
quadrature of the tangent-magnitude function over `[a, b]`. -/
theorem segmentLength_branches (table : List (ℚ × ℚ)) (len : V → ℚ)
    (c : GenericBSplineCommon V) (segmentIndex : ℕ) (a b : ℚ) :
    (c.knots.getD (segmentIndex + c.splineDegree - 1 + 1) 0 -
        c.knots.getD (segmentIndex + c.splineDegree - 1) 0 = 0 →
      segmentLength table len c segmentIndex a b = 0) ∧
    (0 < c.knots.getD (segmentIndex + c.splineDegree - 1 + 1) 0 -
        c.knots.getD (segmentIndex + c.splineDegree - 1) 0 →
      segmentLength table len c segmentIndex a b =
        gaussLegendreQuadratureIntegral table
          (fun t =>
            len (computeDeboorDerivative c (segmentIndex + c.splineDegree - 1 + 1)
              c.splineDegree t 1)) a b) := by
  constructor
  · intro h0
    simp only [segmentLength]
    rw [h0]
    norm_num
  · intro h1
    simp only [segmentLength]
    rw [if_pos h1]

/-- Witness for `segmentLength_branches`: the degenerate curve takes the
zero branch, the sample curve takes the quadrature branch. -/
theorem segmentLength_branches_witness :
    (degenerateCurve.knots.getD (0 + degenerateCurve.splineDegree - 1 + 1) 0 -
        degenerateCurve.knots.getD (0 + degenerateCurve.splineDegree - 1) 0 = 0 ∧
      segmentLength [] id degenerateCurve 0 0 1 = 0) ∧
    (0 < sampleCurve.knots.getD (0 + sampleCurve.splineDegree - 1 + 1) 0 -
        sampleCurve.knots.getD (0 + sampleCurve.splineDegree - 1) 0 ∧
      segmentLength [] id sampleCurve 0 0 1 =
        gaussLegendreQuadratureIntegral []
          (fun t =>
            id (computeDeboorDerivative sampleCurve (0 + sampleCurve.splineDegree - 1 + 1)
              sampleCurve.splineDegree t 1)) 0 1) :=
  ⟨⟨by norm_num [degenerateCurve],
    (segmentLength_branches [] id degenerateCurve 0 0 1).1 (by norm_num [degenerateCurve])⟩,
   ⟨by norm_num [sampleCurve],
    (segmentLength_branches [] id sampleCurve 0 0 1).2 (by norm_num [sampleCurve])⟩⟩

/-- Unfolding the open constructor when the precondition holds. -/
theorem openMake_eq (points : List V) (degree : ℕ) (h : degree < points.length) :
    GenericBSpline.make points degree =
      some { positions := points, knots := openKnots points.length degree,
             splineDegree := degree } := by
  rw [GenericBSpline.make, if_pos h]

/-- Unfolding the looping constructor when the precondition holds. -/
theorem loopingMake_eq (points : List V) (degree : ℕ)
    (h : degree < points.length) :
    LoopingGenericBSpline.make points degree =
      some { positions :=
               points.getD (points.length - 1) 0 :: points ++ points.take (degree - 1)
             knots := loopingKnots points.length degree
             splineDegree := degree } := by
  rw [LoopingGenericBSpline.make, if_pos h]

/-- The segment locator always lands strictly below the segment count,
provided there is at least one segment. -/
theorem segmentForT_lt_segmentCount (c : GenericBSplineCommon V) (t : ℚ)
    (h : 1 ≤ segmentCount c) :
    segmentForT c t < segmentCount c := by
  rw [segmentForT]
  split_ifs with h1 h2
  · omega
  · omega
  · omega

/-- A concrete open degree-1 curve on three control points, as built by
the `GenericBSpline` constructor. -/
def openSample : GenericBSplineCommon ℚ :=
  { positions := [0, 1, 2], knots := openKnots 3 1, splineDegree := 1 }

/-- The same three control points run through the `LoopingGenericBSpline`
constructor (rotated positions, looping knot vector). -/
def loopingSample : GenericBSplineCommon ℚ :=
  { positions := [2, 0, 1, 2], knots := loopingKnots 3 1, splineDegree := 1 }

/-- **C7**: on every constructed curve with at least one segment,
`segmentForT` returns an index in `[0, segmentCount - 1]` for every
query parameter (including out-of-range ones): a parameter below the
first knot yields segment `0`, and a computed index exceeding
`segmentCount - 1` is clamped to `segmentCount - 1`; the locator is
total. -/
theorem segmentForT_never_fails (points : List V) (degree : ℕ)
    (c : GenericBSplineCommon V) (t : ℚ)
    (hdeg : 0 < degree) (hsize : degree < points.length)
    (hc : GenericBSpline.make points degree = some c ∨
      LoopingGenericBSpline.make points degree = some c) :
    segmentForT c t < segmentCount c ∧
    (t < c.knots.getD 0 0 → segmentForT c t = 0) ∧
    (¬ t < 0 →
      segmentCount c - 1 <
        (getIndexForT c.knots t + (2 ^ 64 - (c.splineDegree - 1))) % 2 ^ 64 →
      segmentForT c t = segmentCount c - 1) := by
  have hseg : 1 ≤ segmentCount c := by
    rcases hc with hc | hc
    · rw [openMake_eq points degree hsize, Option.some_inj] at hc
      subst hc
      simp only [segmentCount]
      omega
    · rw [loopingMake_eq points degree hsize, Option.some_inj] at hc
      subst hc
      simp only [segmentCount, List.length_cons, List.length_append, List.length_take]
      omega
  have hknot0 : c.knots.getD 0 0 ≤ 0 := by
    have hval : ∀ L : ℕ, 0 < L → (uniformKnotVector (degree - 1) L).getD 0 0 ≤ 0 := by
      intro L hL
      rw [uniformKnotVector_getD _ _ 0 hL]
      simp only [Nat.cast_zero, zero_sub, neg_nonpos]
      exact Nat.cast_nonneg _
    rcases hc with hc | hc
    · rw [openMake_eq points degree hsize, Option.some_inj] at hc
      subst hc
      exact hval _ (by omega)
    · rw [loopingMake_eq points degree hsize, Option.some_inj] at hc
      subst hc
      exact hval _ (by omega)
  refine ⟨segmentForT_lt_segmentCount c t hseg, fun hlt => ?_, fun h1 h2 => ?_⟩
  · rw [segmentForT, if_pos (lt_of_lt_of_le hlt hknot0)]
  · rw [segmentForT, if_neg h1, if_pos h2]

/-- Witness for `segmentForT_never_fails`: the constructed open sample
curve queried far above its parameter range. -/
theorem segmentForT_never_fails_witness :
    (0 : ℕ) < 1 ∧ 1 < ([0, 1, 2] : List ℚ).length ∧
    GenericBSpline.make ([0, 1, 2] : List ℚ) 1 = some openSample ∧
    segmentForT openSample 5 < segmentCount openSample :=
  ⟨by decide, by decide, rfl,
    (segmentForT_never_fails [0, 1, 2] 1 openSample 5 (by decide) (by decide) (Or.inl rfl)).1⟩

/-- **C8**: for degree `d > 0` and more than `d` control points, the
constructed curve's segment count is `points.size() - d` for the open
constructor and `points.size()` for the looping constructor. -/
theorem segmentCount_eq (points : List V) (degree : ℕ)
    (hdeg : 0 < degree) (hsize : degree < points.length) :
    (∀ c, GenericBSpline.make points degree = some c →
      segmentCount c = points.length - degree) ∧
    (∀ c, LoopingGenericBSpline.make points degree = some c →
      segmentCount c = points.length) := by
  constructor
  · intro c hc
    rw [openMake_eq points degree hsize, Option.some_inj] at hc
    subst hc
    rfl
  · intro c hc
    rw [loopingMake_eq points degree hsize, Option.some_inj] at hc
    subst hc
    simp only [segmentCount, List.length_cons, List.length_append, List.length_take]
    omega

/-- Witness for `segmentCount_eq` on three concrete control points at
degree 1: the open curve has 2 segments, the looping curve 3. -/
theorem segmentCount_eq_witness :
    (0 : ℕ) < 1 ∧ 1 < ([0, 1, 2] : List ℚ).length ∧
    segmentCount openSample = ([0, 1, 2] : List ℚ).length - 1 ∧
    segmentCount loopingSample = ([0, 1, 2] : List ℚ).length :=
  ⟨by decide, by decide,
    (segmentCount_eq [0, 1, 2] 1 (by decide) (by decide)).1 openSample rfl,
    (segmentCount_eq [0, 1, 2] 1 (by decide) (by decide)).2 loopingSample rfl⟩

/-- **C9**: constructing either curve with `points.size() <= degree`
fails the construction precondition (no curve is produced), and
construction with `points.size() > degree` succeeds. -/
theorem construction_precondition (points : List V) (degree : ℕ) :
    (points.length ≤ degree →
      GenericBSpline.make points degree = none ∧
      LoopingGenericBSpline.make points degree = none) ∧
    (degree < points.length →
      (∃ c, GenericBSpline.make points degree = some c) ∧
      (∃ c, LoopingGenericBSpline.make points degree = some c)) := by
  constructor
  · intro h
    refine ⟨?_, ?_⟩
    · rw [GenericBSpline.make, if_neg (by omega)]
    · rw [LoopingGenericBSpline.make, if_neg (by omega)]
  · intro h
    exact ⟨⟨_, openMake_eq points degree h⟩,
      ⟨_, loopingMake_eq points degree h⟩⟩

/-- Witness for `construction_precondition`: two points at degree 2 are
rejected; three points at degree 1 are accepted. -/
theorem construction_precondition_witness :
    (([0, 1] : List ℚ).length ≤ 2 ∧
      GenericBSpline.make ([0, 1] : List ℚ) 2 = none ∧
      LoopingGenericBSpline.make ([0, 1] : List ℚ) 2 = none) ∧
    ((1 : ℕ) < ([0, 1, 2] : List ℚ).length ∧
      (∃ c, GenericBSpline.make ([0, 1, 2] : List ℚ) 1 = some c) ∧
      (∃ c, LoopingGenericBSpline.make ([0, 1, 2] : List ℚ) 1 = some c)) :=
  ⟨⟨by decide, (construction_precondition ([0, 1] : List ℚ) 2).1 (by decide)⟩,
   ⟨by decide, (construction_precondition ([0, 1, 2] : List ℚ) 1).2 (by decide)⟩⟩

/-- Over a uniform knot vector of length `L` with padding `p`, every
knot-span denominator in the `computeDeboor` recursion tree rooted at
`(i, d)` is strictly positive, provided `d ≤ splineDegree ≤ i` level by
level and the subtree stays inside the knot vector
(`i + splineDegree ≤ L`). -/
theorem deboorDenominators_pos_of_uniform (c : GenericBSplineCommon V) (p L : ℕ)
    (hk : c.knots = uniformKnotVector p L) :
    ∀ d i, d ≤ c.splineDegree → d ≤ i → i + c.splineDegree ≤ L →
      ∀ q ∈ deboorDenominators c i d, 0 < q := by
  intro d
  induction d with
  | zero =>
    intro i _ _ _ q hq
    simp [deboorDenominators] at hq
  | succ d ih =>
    intro i hds hdi hiL q hq
    rw [deboorDenominators] at hq
    rcases List.mem_cons.mp hq with rfl | hq'
    · have hB : i - 1 < L := by omega
      have hA : i + c.splineDegree - (d + 1) < L := by omega
      have hBA : i - 1 < i + c.splineDegree - (d + 1) := by omega
      rw [hk, uniformKnotVector_getD p L _ hA, uniformKnotVector_getD p L _ hB]
      have hcast : ((i - 1 : ℕ) : ℚ) < ((i + c.splineDegree - (d + 1) : ℕ) : ℚ) :=
        Nat.cast_lt.mpr hBA
      linarith
    · rcases List.mem_append.mp hq' with hqa | hqb
      · exact ih (i - 1) (by omega) (by omega) (by omega) q hqa
      · exact ih i (by omega) (by omega) (by omega) q hqb

/-- The derivative recursion divides by exactly the same knot spans as
the position recursion: its denominator list coincides with
`deboorDenominators` at every root, whatever the derivative level. -/
theorem deboorDerivativeDenominators_eq (c : GenericBSplineCommon V) :
    ∀ d i l, deboorDerivativeDenominators c i d l = deboorDenominators c i d := by
  intro d
  induction d with
  | zero => intro i l; rfl
  | succ d ih =>
    intro i l
    rw [deboorDerivativeDenominators, deboorDenominators]
    by_cases hl : l ≤ 1
    · rw [if_pos hl]
    · rw [if_neg hl, ih (i - 1) (l - 1), ih i (l - 1)]

/-- **C4**: on every constructed curve, for every query parameter and
every derivative level, no knot-span denominator reached by the de Boor
position or derivative recursion of a top-level query (`getPosition`,
`getTangent`, `getCurvature`, `getWiggle` all start the recursions at
knot index `segmentForT t + (splineDegree - 1) + 1` and degree
`splineDegree`) is zero.  This holds because both constructors build
strictly increasing uniform knot vectors (parameterization exponent
`0.0f`), not because the recursion guards the division: `computeDeboor`
and `computeDeboorDerivative` divide unconditionally. -/
theorem no_zero_denominator_in_queries (points : List V) (degree : ℕ)
    (c : GenericBSplineCommon V) (t : ℚ) (level : ℕ)
    (hdeg : 0 < degree) (hsize : degree < points.length)
    (hc : GenericBSpline.make points degree = some c ∨
      LoopingGenericBSpline.make points degree = some c) :
    (∀ q ∈ deboorDenominators c
        (segmentForT c t + (c.splineDegree - 1) + 1) c.splineDegree, q ≠ 0) ∧
    (∀ q ∈ deboorDerivativeDenominators c
        (segmentForT c t + (c.splineDegree - 1) + 1) c.splineDegree level, q ≠ 0) := by
  have key : ∀ q ∈ deboorDenominators c
      (segmentForT c t + (c.splineDegree - 1) + 1) c.splineDegree, 0 < q := by
    rcases hc with hc | hc
    · rw [openMake_eq points degree hsize, Option.some_inj] at hc
      have hdeg' : c.splineDegree = degree := by rw [← hc]
      have hknots : c.knots =
          uniformKnotVector (degree - 1) (points.length + 2 * (degree - 1)) := by
        rw [← hc]; rfl
      have hlen : c.positions.length = points.length := by rw [← hc]
      have hseg : 1 ≤ segmentCount c := by
        simp only [segmentCount, hlen, hdeg']; omega
      have hforT := segmentForT_lt_segmentCount c t hseg
      simp only [segmentCount, hlen, hdeg'] at hforT
      refine deboorDenominators_pos_of_uniform c (degree - 1) _ hknots
        c.splineDegree _ le_rfl (by omega) ?_
      rw [hdeg']
      omega
    · rw [loopingMake_eq points degree hsize, Option.some_inj] at hc
      have hdeg' : c.splineDegree = degree := by rw [← hc]
      have hknots : c.knots =
          uniformKnotVector (degree - 1) (points.length + 2 * (degree - 1) + 1) := by
        rw [← hc]; rfl
      have hlen : c.positions.length =
          points.length + min (degree - 1) points.length + 1 := by
        rw [← hc]
        simp only [List.length_cons, List.length_append, List.length_take]
        omega
      have hseg : 1 ≤ segmentCount c := by
        simp only [segmentCount, hlen, hdeg']; omega
      have hforT := segmentForT_lt_segmentCount c t hseg
      simp only [segmentCount, hlen, hdeg'] at hforT
      refine deboorDenominators_pos_of_uniform c (degree - 1) _ hknots
        c.splineDegree _ le_rfl (by omega) ?_
      rw [hdeg']
      omega
  refine ⟨fun q hq => (key q hq).ne', fun q hq => ?_⟩
  rw [deboorDerivativeDenominators_eq] at hq
  exact (key q hq).ne'

/-- Witness for `no_zero_denominator_in_queries`: the constructed open
sample curve at `t = 1/2`. -/
theorem no_zero_denominator_in_queries_witness :
    (0 : ℕ) < 1 ∧ 1 < ([0, 1, 2] : List ℚ).length ∧
    GenericBSpline.make ([0, 1, 2] : List ℚ) 1 = some openSample ∧
    (∀ q ∈ deboorDenominators openSample
        (segmentForT openSample (1/2) + (openSample.splineDegree - 1) + 1)
        openSample.splineDegree, q ≠ 0) :=
  ⟨by decide, by decide, rfl,
    (no_zero_denominator_in_queries [0, 1, 2] 1 openSample (1/2) 2
      (by decide) (by decide) (Or.inl rfl)).1⟩
